import Mathlib

/-!
Shallow embedding of the visco-plastic material model of this repository
(src/source/material_model/visco_plastic.cc) and of the volume-fraction
helper of the nonlinear channel flow benchmark
(src/benchmarks/nonlinear_channel_flow/simple_nonlinear.cc), together with
theorems settling the frozen claims about them.

Doubles are modelled as real numbers; the 2-D instantiation of the dim
template parameter is embedded (symmetric rank-2 tensors with three
independent components, unrolled in the deal.II order (0,0), (1,1), (0,1)).
Per-phase configuration lists are modelled as functions from the phase
index, and accumulation loops as sums over Finset.range.
-/

namespace AspectVP

noncomputable section

/-! ### Constants -/

/-- Universal gas constant (aspect::constants::gas_constant). -/
def gas_constant : ℝ := 8.31446261815324

/-- Smallest positive normal double, std::numeric_limits of double .min(). -/
def dbl_min : ℝ := ((2:ℝ)^(1022:ℕ))⁻¹

/-- The finite-difference accuracy used in ViscoPlastic::evaluate (1e-7). -/
def fd_accuracy : ℝ := 1e-7

/-! ### 2-D symmetric tensors (deal.II SymmetricTensor of rank 2, dim 2) -/

/-- A symmetric rank-2 tensor in two dimensions. -/
structure SymTensor2 where
  xx : ℝ
  yy : ℝ
  xy : ℝ

/-- Trace of a 2-D symmetric tensor. -/
def SymTensor2.trace (t : SymTensor2) : ℝ := t.xx + t.yy

/-- Deviator: t minus (trace/dim) times the identity, dim = 2. -/
def SymTensor2.deviator (t : SymTensor2) : SymTensor2 :=
  ⟨t.xx - t.trace / 2, t.yy - t.trace / 2, t.xy⟩

/-- deal.II second invariant of a symmetric rank-2 tensor in 2-D:
the determinant t00*t11 - t01^2. -/
def SymTensor2.second_invariant (t : SymTensor2) : ℝ := t.xx * t.yy - t.xy ^ 2

/-- Frobenius norm of a symmetric tensor (off-diagonal entries counted twice),
as used by strain_rate.norm() in the code. -/
def SymTensor2.frobNorm (t : SymTensor2) : ℝ :=
  Real.sqrt (t.xx ^ 2 + t.yy ^ 2 + 2 * t.xy ^ 2)

/-- Unrolled component access, deal.II ordering: 0 is (0,0), 1 is (1,1),
2 is (0,1). -/
def SymTensor2.comp (t : SymTensor2) : ℕ → ℝ
  | 0 => t.xx
  | 1 => t.yy
  | _ => t.xy

/-- Modelled from the spec: Utilities::nth_basis_for_symmetric_tensors
(declared in aspect/utilities.h, implementation not under src/): the unit
symmetric tensor with a one in the given unrolled component. -/
def basis_tensor : ℕ → SymTensor2
  | 0 => ⟨1, 0, 0⟩
  | 1 => ⟨0, 1, 0⟩
  | _ => ⟨0, 0, 1⟩

/-- t + c * b, componentwise. -/
def SymTensor2.addScaled (t : SymTensor2) (c : ℝ) (b : SymTensor2) : SymTensor2 :=
  ⟨t.xx + c * b.xx, t.yy + c * b.yy, t.xy + c * b.xy⟩

/-! ### Enumerated configuration choices -/

/-- ViscoPlastic::ViscosityScheme. -/
inductive ViscosityScheme
  | diffusion
  | dislocation
  | composite

/-- ViscoPlastic::YieldScheme. -/
inductive YieldScheme
  | drucker_prager
  | stress_limiter

/-- ViscoPlastic::averaging_scheme. -/
inductive AveragingScheme
  | arithmetic
  | harmonic
  | geometric
  | maximum_composition

/-! ### Configuration (the parsed parameters of ViscoPlastic) -/

/-- The read-only configuration state of the ViscoPlastic model, as set by
parse_parameters.  Per-phase lists (N+1 entries) are modelled as functions
from the phase index j; compositional-field name lookups
(introspection().compositional_index_for_name) are modelled as stored
indices. -/
structure VPConfig where
  reference_T : ℝ
  min_strain_rate : ℝ
  ref_strain_rate : ℝ
  min_visc : ℝ
  max_visc : ℝ
  ref_visc : ℝ
  grain_size : ℝ
  max_yield_strength : ℝ
  thermal_diffusivities : ℕ → ℝ
  heat_capacities : ℕ → ℝ
  densities : ℕ → ℝ
  thermal_expansivities : ℕ → ℝ
  prefactors_diffusion : ℕ → ℝ
  grain_size_exponents_diffusion : ℕ → ℝ
  activation_energies_diffusion : ℕ → ℝ
  activation_volumes_diffusion : ℕ → ℝ
  prefactors_dislocation : ℕ → ℝ
  stress_exponents_dislocation : ℕ → ℝ
  activation_energies_dislocation : ℕ → ℝ
  activation_volumes_dislocation : ℕ → ℝ
  angles_internal_friction : ℕ → ℝ
  cohesions : ℕ → ℝ
  exponents_stress_limiter : ℕ → ℝ
  use_strain_weakening : Bool
  use_plastic_strain_weakening : Bool
  use_viscous_strain_weakening : Bool
  use_finite_strain_tensor : Bool
  start_plastic_strain_weakening_intervals : ℕ → ℝ
  end_plastic_strain_weakening_intervals : ℕ → ℝ
  start_viscous_strain_weakening_intervals : ℕ → ℝ
  end_viscous_strain_weakening_intervals : ℕ → ℝ
  viscous_strain_weakening_factors : ℕ → ℝ
  cohesion_strain_weakening_factors : ℕ → ℝ
  friction_strain_weakening_factors : ℕ → ℝ
  use_fixed_spcrust_viscosity : Bool
  maximum_spcrust_viscosity : ℝ
  spcrust_viscosity_minimum_pressure : ℝ
  spcrust_viscosity_maximum_pressure : ℝ
  use_spcrust_density_change : Bool
  spcrust_density_change : ℝ
  spcrust_density_minimum_pressure : ℝ
  spcrust_density_maximum_pressure : ℝ
  spcrust_index : ℕ
  plastic_strain_index : ℕ
  viscous_strain_index : ℕ
  total_strain_index : ℕ
  s11_index : ℕ

/-! ### Volume fractions -/

/-- SimpleNonlinear::compute_volume_fractions
(src/benchmarks/nonlinear_channel_flow/simple_nonlinear.cc, lines 109-139):
clip each composition to [0,1], sum; if the sum is at least one the
background entry (index 0) is zero and the phases are renormalized,
otherwise the background is one minus the sum and phases keep their
clipped values. -/
def compute_volume_fractions (compositional_fields : List ℝ) : List ℝ :=
  let x_comp := compositional_fields.map (fun x => min (max x 0) 1)
  let sum_composition := x_comp.sum
  if 1 ≤ sum_composition then
    0 :: x_comp.map (fun x => x / sum_composition)
  else
    (1 - sum_composition) :: x_comp

/-- Modelled from the spec: aspect::MaterialModel::compute_volume_fractions
with a component mask (aspect/utilities, implementation not under src/).
Per spec section 4.1 fields excluded by the mask do not participate in the
volume-fraction calculation; as in the in-repository unmasked version
(SimpleNonlinear::compute_volume_fractions) the unmasked values are clipped
to [0,1] and summed, the background is entry 0, and either the phases are
renormalized (sum at least one) or the background absorbs the remainder.
Masked fields contribute zero, keeping one output slot per field plus the
background so that phase j corresponds to field j-1 in the caller. -/
def compute_volume_fractions_masked (compositional_fields : List ℝ)
    (mask : ℕ → Bool) : List ℝ :=
  let x_comp := (List.range compositional_fields.length).map
    (fun i => if mask i then min (max (compositional_fields.getD i 0) 0) 1 else 0)
  let sum_composition := x_comp.sum
  if 1 ≤ sum_composition then
    0 :: x_comp.map (fun x => x / sum_composition)
  else
    (1 - sum_composition) :: x_comp

/-! ### Averaging (ViscoPlastic::average_value) -/

/-- Index returned by std::max_element on a vector of doubles: the first
index attaining the maximal value (a strictly greater later element is
required to displace the current maximum).  Returns 0 on the empty list
(the callers only use nonempty vectors). -/
def max_element_index : List ℝ → ℕ
  | [] => 0
  | [_] => 0
  | x :: y :: xs =>
    if x < (y :: xs).getD (max_element_index (y :: xs)) 0 then
      max_element_index (y :: xs) + 1
    else 0

/-- ViscoPlastic::average_value (visco_plastic.cc, lines 78-124). -/
def average_value (volume_fractions parameter_values : List ℝ) :
    AveragingScheme → ℝ
  | .arithmetic =>
      ∑ i in Finset.range volume_fractions.length,
        volume_fractions.getD i 0 * parameter_values.getD i 0
  | .harmonic =>
      1 / ∑ i in Finset.range volume_fractions.length,
        volume_fractions.getD i 0 / parameter_values.getD i 0
  | .geometric =>
      Real.exp (∑ i in Finset.range volume_fractions.length,
        volume_fractions.getD i 0 * Real.log (parameter_values.getD i 0))
  | .maximum_composition =>
      parameter_values.getD (max_element_index volume_fractions) 0

/-! ### Strain weakening (visco_plastic.cc, lines 335-368) -/

/-- The clamped linear interpolation fraction shared by
calculate_plastic_weakening and calculate_viscous_weakening:
the strain invariant is constrained to [start, end] and the fraction is
(cut_off - start) / (start - end), exactly as written in the source. -/
def weakening_strain_fraction (startv endv strain_ii : ℝ) : ℝ :=
  (max (min strain_ii endv) startv - startv) / (startv - endv)

/-- ViscoPlastic::calculate_plastic_weakening (lines 335-351): weakened
(cohesion, friction angle) for phase j. -/
def calculate_plastic_weakening (cfg : VPConfig) (strain_ii : ℝ) (j : ℕ) :
    ℝ × ℝ :=
  let f := weakening_strain_fraction
    (cfg.start_plastic_strain_weakening_intervals j)
    (cfg.end_plastic_strain_weakening_intervals j) strain_ii
  (cfg.cohesions j +
     (cfg.cohesions j - cfg.cohesions j * cfg.cohesion_strain_weakening_factors j) * f,
   cfg.angles_internal_friction j +
     (cfg.angles_internal_friction j -
        cfg.angles_internal_friction j * cfg.friction_strain_weakening_factors j) * f)

/-- ViscoPlastic::calculate_viscous_weakening (lines 353-368). -/
def calculate_viscous_weakening (cfg : VPConfig) (strain_ii : ℝ) (j : ℕ) : ℝ :=
  1 + (1 - cfg.viscous_strain_weakening_factors j) *
    weakening_strain_fraction
      (cfg.start_viscous_strain_weakening_intervals j)
      (cfg.end_viscous_strain_weakening_intervals j) strain_ii

/-- Second invariant of the left stretching tensor L = F Fᵀ, F read
row-major from the composition fields starting at index first
(Tensor of rank 2 in 2-D has components (0,0),(0,1),(1,0),(1,1)).
Used with first = 0 inside calculate_isostrain_viscosities (line 222)
and with first = s11_index in the plastic-output block (line 637). -/
def finite_strain_invariant (first : ℕ) (composition : List ℝ) : ℝ :=
  let c0 := composition.getD first 0
  let c1 := composition.getD (first + 1) 0
  let c2 := composition.getD (first + 2) 0
  let c3 := composition.getD (first + 3) 0
  |(c0 ^ 2 + c1 ^ 2) * (c2 ^ 2 + c3 ^ 2) - (c0 * c2 + c1 * c3) ^ 2|

/-- The strain invariant driving plastic weakening inside
calculate_isostrain_viscosities (lines 214-232): the finite-strain tensor
invariant, the plastic strain field, the total strain field, or zero when
only viscous strain weakening is in use. -/
def weakening_strain_ii (cfg : VPConfig) (composition : List ℝ) : ℝ :=
  if cfg.use_finite_strain_tensor then finite_strain_invariant 0 composition
  else if cfg.use_plastic_strain_weakening then
    composition.getD cfg.plastic_strain_index 0
  else if cfg.use_viscous_strain_weakening = false then
    composition.getD cfg.total_strain_index 0
  else 0

/-- The (possibly weakened) cohesion and friction angle of phase j
(lines 205-237). -/
def phase_cohesion_phi (cfg : VPConfig) (composition : List ℝ) (j : ℕ) :
    ℝ × ℝ :=
  if cfg.use_strain_weakening then
    calculate_plastic_weakening cfg (weakening_strain_ii cfg composition) j
  else (cfg.cohesions j, cfg.angles_internal_friction j)

/-- The viscous prefactor weakening of phase j (lines 211, 239-245):
from the viscous strain field when that mode is active, otherwise from
the strain invariant already used for the plastic weakening. -/
def phase_viscous_weakening (cfg : VPConfig) (composition : List ℝ) (j : ℕ) : ℝ :=
  if cfg.use_strain_weakening then
    calculate_viscous_weakening cfg
      (if cfg.use_viscous_strain_weakening then
         composition.getD cfg.viscous_strain_index 0
       else weakening_strain_ii cfg composition) j
  else 1

/-! ### Flow laws (lines 157-203) -/

/-- Diffusion creep viscosity of phase j (lines 165-168). -/
def viscosity_diffusion (cfg : VPConfig) (pressure temperature : ℝ) (j : ℕ) : ℝ :=
  0.5 / cfg.prefactors_diffusion j *
    Real.exp ((cfg.activation_energies_diffusion j +
        pressure * cfg.activation_volumes_diffusion j) /
      (gas_constant * temperature)) *
    cfg.grain_size ^ cfg.grain_size_exponents_diffusion j

/-- Dislocation creep viscosity of phase j (lines 171-174). -/
def viscosity_dislocation (cfg : VPConfig) (pressure temperature edot_ii : ℝ)
    (j : ℕ) : ℝ :=
  0.5 * cfg.prefactors_dislocation j ^ (-1 / cfg.stress_exponents_dislocation j) *
    Real.exp ((cfg.activation_energies_dislocation j +
        pressure * cfg.activation_volumes_dislocation j) /
      (gas_constant * temperature * cfg.stress_exponents_dislocation j)) *
    edot_ii ^ ((1 - cfg.stress_exponents_dislocation j) /
      cfg.stress_exponents_dislocation j)

/-- Composite viscosity (line 177). -/
def viscosity_composite (cfg : VPConfig) (pressure temperature edot_ii : ℝ)
    (j : ℕ) : ℝ :=
  viscosity_diffusion cfg pressure temperature j *
      viscosity_dislocation cfg pressure temperature edot_ii j /
    (viscosity_diffusion cfg pressure temperature j +
      viscosity_dislocation cfg pressure temperature edot_ii j)

/-- The selected flow-law viscosity (switch at lines 180-203). -/
def viscosity_flow (cfg : VPConfig) (vt : ViscosityScheme)
    (pressure temperature edot_ii : ℝ) (j : ℕ) : ℝ :=
  match vt with
  | .diffusion => viscosity_diffusion cfg pressure temperature j
  | .dislocation => viscosity_dislocation cfg pressure temperature edot_ii j
  | .composite => viscosity_composite cfg pressure temperature edot_ii j

/-- The spcrust fixed-viscosity transition (lines 251-271), applied to the
pre-yield viscosity v of phase j. -/
def spcrust_adjust (cfg : VPConfig) (pressure : ℝ) (j : ℕ) (v : ℝ) : ℝ :=
  if cfg.use_fixed_spcrust_viscosity then
    if j = cfg.spcrust_index + 1 then
      if pressure ≤ cfg.spcrust_viscosity_minimum_pressure then
        min cfg.maximum_spcrust_viscosity v
      else if pressure < cfg.spcrust_viscosity_maximum_pressure then
        min (cfg.maximum_spcrust_viscosity *
          (10:ℝ) ^ ((pressure - cfg.spcrust_viscosity_minimum_pressure) *
            (Real.logb 10 cfg.max_visc - Real.logb 10 cfg.maximum_spcrust_viscosity) /
            (cfg.spcrust_viscosity_maximum_pressure -
              cfg.spcrust_viscosity_minimum_pressure))) v
      else v
    else v
  else v

/-- The pre-yield viscosity of phase j (lines 180-271): selected flow-law
viscosity times the viscous strain weakening, then the spcrust
adjustment. -/
def viscosity_pre_yield (cfg : VPConfig) (vt : ViscosityScheme)
    (pressure temperature edot_ii : ℝ) (composition : List ℝ) (j : ℕ) : ℝ :=
  spcrust_adjust cfg pressure j
    (viscosity_flow cfg vt pressure temperature edot_ii j *
      phase_viscous_weakening cfg composition j)

/-! ### Plasticity (lines 273-328) -/

/-- The 2-D Drucker-Prager yield strength (line 282):
coh * cos(phi) + max(pressure, 0) * sin(phi). -/
def drucker_prager_yield_2d (coh phi pressure : ℝ) : ℝ :=
  coh * Real.cos phi + max pressure 0 * Real.sin phi

/-- The capped yield strength of phase j (lines 277-285): the 2-D
Drucker-Prager yield strength at the (possibly weakened) cohesion and
friction angle, limited by the maximum yield strength. -/
def phase_yield_strength (cfg : VPConfig) (composition : List ℝ)
    (pressure : ℝ) (j : ℕ) : ℝ :=
  min (drucker_prager_yield_2d (phase_cohesion_phi cfg composition j).1
        (phase_cohesion_phi cfg composition j).2 pressure)
    cfg.max_yield_strength

/-- The yielding indicator of phase j (lines 287-298): 1 when the viscous
stress reaches the capped yield strength, otherwise 0. -/
def phase_yielding (cfg : VPConfig) (vt : ViscosityScheme)
    (pressure temperature edot_ii : ℝ) (composition : List ℝ) (j : ℕ) : ℝ :=
  if phase_yield_strength cfg composition pressure j ≤
      2 * viscosity_pre_yield cfg vt pressure temperature edot_ii composition j *
        edot_ii then 1 else 0

/-- The Drucker-Prager viscosity of phase j (lines 287-298): rescaled to
the yield surface when yielding, otherwise the pre-yield value. -/
def phase_viscosity_drucker_prager (cfg : VPConfig) (vt : ViscosityScheme)
    (pressure temperature edot_ii : ℝ) (composition : List ℝ) (j : ℕ) : ℝ :=
  if phase_yield_strength cfg composition pressure j ≤
      2 * viscosity_pre_yield cfg vt pressure temperature edot_ii composition j *
        edot_ii then
    phase_yield_strength cfg composition pressure j / (2 * edot_ii)
  else viscosity_pre_yield cfg vt pressure temperature edot_ii composition j

/-- The stress-limiter viscosity of phase j (lines 301-304). -/
def phase_viscosity_limiter (cfg : VPConfig) (composition : List ℝ)
    (pressure edot_ii : ℝ) (j : ℕ) : ℝ :=
  phase_yield_strength cfg composition pressure j / (2 * cfg.ref_strain_rate) *
    (edot_ii / cfg.ref_strain_rate) ^ (1 / cfg.exponents_stress_limiter j - 1)

/-- The yield-stage viscosity of phase j (switch at lines 306-325). -/
def phase_viscosity_yield (cfg : VPConfig) (vt : ViscosityScheme)
    (yt : YieldScheme) (pressure temperature edot_ii : ℝ)
    (composition : List ℝ) (j : ℕ) : ℝ :=
  match yt with
  | .stress_limiter =>
      1 / (1 / phase_viscosity_limiter cfg composition pressure edot_ii j +
        1 / viscosity_pre_yield cfg vt pressure temperature edot_ii composition j)
  | .drucker_prager =>
      phase_viscosity_drucker_prager cfg vt pressure temperature edot_ii
        composition j

/-- The final per-phase viscosity (line 328): the yield-stage viscosity
clamped to [min_visc, max_visc]. -/
def phase_viscosity (cfg : VPConfig) (vt : ViscosityScheme) (yt : YieldScheme)
    (pressure temperature edot_ii : ℝ) (composition : List ℝ) (j : ℕ) : ℝ :=
  min (max (phase_viscosity_yield cfg vt yt pressure temperature edot_ii
      composition j) cfg.min_visc) cfg.max_visc

/-- The strain-rate invariant of lines 145-150: the reference strain rate
on the very first evaluation with a vanishing strain rate, otherwise the
square root of the absolute second invariant of the deviatoric strain rate,
floored by the minimum strain rate. -/
def edot_ii_value (cfg : VPConfig) (timestep_number : ℕ) (sr : SymTensor2) : ℝ :=
  if timestep_number = 0 ∧ sr.frobNorm ≤ dbl_min then cfg.ref_strain_rate
  else max (Real.sqrt |sr.deviator.second_invariant|) cfg.min_strain_rate

/-- ViscoPlastic::calculate_isostrain_viscosities (lines 127-332):
the per-phase viscosities (clamped) and yielding indicators. -/
def calculate_isostrain_viscosities (cfg : VPConfig)
    (volume_fractions : List ℝ) (pressure temperature : ℝ)
    (composition : List ℝ) (strain_rate : SymTensor2)
    (vt : ViscosityScheme) (yt : YieldScheme) (timestep_number : ℕ) :
    List ℝ × List ℝ :=
  let edot := edot_ii_value cfg timestep_number strain_rate
  ((List.range volume_fractions.length).map
     (fun j => phase_viscosity cfg vt yt pressure temperature edot composition j),
   (List.range volume_fractions.length).map
     (fun j => phase_yielding cfg vt pressure temperature edot composition j))

/-! ### The finite-difference strain-rate derivatives (lines 484-514) -/

/-- The strain-rate tensor perturbed in unrolled component k
(lines 491-494): the component is displaced by
max(abs(component), min_strain_rate) * 1e-7. -/
def perturbed_strain_rate (cfg : VPConfig) (sr : SymTensor2) (k : ℕ) :
    SymTensor2 :=
  sr.addScaled (max |sr.comp k| cfg.min_strain_rate * fd_accuracy)
    (basis_tensor k)

/-- The finite-difference derivative entry of phase j with respect to
unrolled strain-rate component k (lines 495-513): the per-phase viscosity
delta between the perturbed and unperturbed pipeline runs, divided - when
the delta is nonzero - by max(abs(perturbed component), min_strain_rate)
times 1e-7. -/
def fd_viscosity_derivative (cfg : VPConfig) (volume_fractions : List ℝ)
    (pressure temperature : ℝ) (composition : List ℝ) (sr : SymTensor2)
    (vt : ViscosityScheme) (yt : YieldScheme) (timestep_number : ℕ)
    (k j : ℕ) : ℝ :=
  let base := (calculate_isostrain_viscosities cfg volume_fractions pressure
    temperature composition sr vt yt timestep_number).1
  let pert := (calculate_isostrain_viscosities cfg volume_fractions pressure
    temperature composition (perturbed_strain_rate cfg sr k) vt yt
    timestep_number).1
  let d := pert.getD j 0 - base.getD j 0
  if d = 0 then 0
  else d / (max |(perturbed_strain_rate cfg sr k).comp k| cfg.min_strain_rate *
    fd_accuracy)

/-! ### The point evaluator (ViscoPlastic::evaluate, lines 370-706) -/

/-- The component mask excluding strain-tracking fields from the volume
fraction computation (lines 380-399). -/
def composition_mask (cfg : VPConfig) (c : ℕ) : Bool :=
  if cfg.use_strain_weakening then
    if cfg.use_plastic_strain_weakening ∧ c = cfg.plastic_strain_index then false
    else if cfg.use_viscous_strain_weakening ∧ c = cfg.viscous_strain_index then
      false
    else if cfg.use_plastic_strain_weakening = false ∧
        cfg.use_viscous_strain_weakening = false ∧
        cfg.use_finite_strain_tensor = false ∧ c = cfg.total_strain_index then
      false
    else if cfg.use_finite_strain_tensor ∧ cfg.s11_index ≤ c ∧
        c < cfg.s11_index + 4 then false
    else true
  else true

/-- The per-point plastic yielding flag (line 477): the double returned by
average_value under maximum_composition on the yielding indicators,
converted to bool (nonzero means true). -/
def plastic_yielding_flag (cfg : VPConfig) (volume_fractions : List ℝ)
    (pressure temperature : ℝ) (composition : List ℝ) (sr : SymTensor2)
    (vt : ViscosityScheme) (yt : YieldScheme) (timestep_number : ℕ) : Bool :=
  if average_value volume_fractions
      (calculate_isostrain_viscosities cfg volume_fractions pressure temperature
        composition sr vt yt timestep_number).2 .maximum_composition = 0 then
    false
  else true

/-- The strain invariant used in the plastic-output block
(lines 628-642). -/
def output_strain_invariant (cfg : VPConfig) (composition : List ℝ) : ℝ :=
  if cfg.use_plastic_strain_weakening then
    composition.getD cfg.plastic_strain_index 0
  else if cfg.use_viscous_strain_weakening = false ∧
      cfg.use_finite_strain_tensor = false then
    composition.getD cfg.total_strain_index 0
  else if cfg.use_finite_strain_tensor then
    finite_strain_invariant cfg.s11_index composition
  else 0

/-- The reaction terms written by evaluate (lines 592-614): all zero,
except that with scalar strain tracking, a positive timestep number and a
supplied strain rate, the tracked strain field is advanced by
edot_ii * dt - the plastic strain field only when plastically yielding,
the viscous strain field only when not yielding, the total strain field
whenever neither of those two modes is active. -/
def reaction_terms_out (cfg : VPConfig) (timestep_number : ℕ) (dt : ℝ)
    (composition : List ℝ) (srOpt : Option SymTensor2) (yielding : Bool) :
    List ℝ :=
  let base := List.replicate composition.length (0:ℝ)
  match srOpt with
  | none => base
  | some sr =>
    if cfg.use_strain_weakening ∧ cfg.use_finite_strain_tensor = false ∧
        0 < timestep_number then
      let e_ii := max (Real.sqrt |sr.deviator.second_invariant|)
        cfg.min_strain_rate * dt
      let l1 := if cfg.use_plastic_strain_weakening ∧ yielding then
        base.set cfg.plastic_strain_index e_ii else base
      let l2 := if cfg.use_viscous_strain_weakening ∧ yielding = false then
        l1.set cfg.viscous_strain_index e_ii else l1
      if cfg.use_plastic_strain_weakening = false ∧
          cfg.use_viscous_strain_weakening = false then
        l2.set cfg.total_strain_index e_ii
      else l2
    else base

/-- The values filled into PlasticAdditionalOutputs for one point
(lines 616-658): the fraction-weighted (possibly weakened) cohesion, the
fraction-weighted friction angle converted to degrees, and the yielding
flag as 0 or 1. -/
def plastic_output_values (cfg : VPConfig) (volume_fractions : List ℝ)
    (composition : List ℝ) (yielding : Bool) : ℝ × ℝ × ℝ :=
  let C := ∑ j in Finset.range volume_fractions.length,
    volume_fractions.getD j 0 *
      (if cfg.use_strain_weakening then
        (calculate_plastic_weakening cfg (output_strain_invariant cfg composition) j).1
       else cfg.cohesions j)
  let phi := ∑ j in Finset.range volume_fractions.length,
    volume_fractions.getD j 0 *
      (if cfg.use_strain_weakening then
        (calculate_plastic_weakening cfg (output_strain_invariant cfg composition) j).2
       else cfg.angles_internal_friction j)
  (C, phi * 180 / Real.pi, if yielding then 1 else 0)

/-- The spcrust density adjustment for phase j (lines 416-431). -/
def delta_crust_density (cfg : VPConfig) (pressure : ℝ) (j : ℕ) : ℝ :=
  if cfg.use_spcrust_density_change then
    if j = cfg.spcrust_index + 1 then
      if cfg.spcrust_density_minimum_pressure < pressure ∧
          pressure < cfg.spcrust_density_maximum_pressure then
        (pressure - cfg.spcrust_density_minimum_pressure) *
          cfg.spcrust_density_change /
          (cfg.spcrust_density_maximum_pressure -
            cfg.spcrust_density_minimum_pressure)
      else if cfg.spcrust_density_maximum_pressure ≤ pressure then
        cfg.spcrust_density_change
      else 0
    else 0
  else 0

/-- The outputs of ViscoPlastic::evaluate at one evaluation point.
The viscosity is only written when a strain rate is supplied, and the
plastic named outputs only when the caller allocated the
PlasticAdditionalOutputs slot; both are modelled as options. -/
structure PointOutput where
  density : ℝ
  thermal_expansion_coefficient : ℝ
  specific_heat : ℝ
  thermal_conductivity : ℝ
  compressibility : ℝ
  entropy_derivative_pressure : ℝ
  entropy_derivative_temperature : ℝ
  viscosity : Option ℝ
  plastic_yielding : Bool
  reaction_terms : List ℝ
  plastic : Option (ℝ × ℝ × ℝ)

/-- The body of the per-point loop of ViscoPlastic::evaluate
(lines 402-659).  adiabatic_density carries the external adiabatic
reference density when the temperature equation uses the reference density
profile formulation and the adiabatic conditions are initialized
(lines 577-583); has_plastic_out models the presence of the
PlasticAdditionalOutputs slot in the caller's output record. -/
def evaluatePoint (cfg : VPConfig) (vt : ViscosityScheme) (yt : YieldScheme)
    (avg : AveragingScheme) (timestep_number : ℕ) (dt : ℝ)
    (temperature pressure : ℝ) (composition : List ℝ)
    (srOpt : Option SymTensor2) (adiabatic_density : Option ℝ)
    (has_plastic_out : Bool) : PointOutput :=
  let volume_fractions :=
    compute_volume_fractions_masked composition (composition_mask cfg)
  let n := volume_fractions.length
  let density := ∑ j in Finset.range n, volume_fractions.getD j 0 *
    (cfg.densities j + delta_crust_density cfg pressure j) *
    (1 - cfg.thermal_expansivities j * (temperature - cfg.reference_T))
  let thermal_expansivity := ∑ j in Finset.range n,
    volume_fractions.getD j 0 * cfg.thermal_expansivities j
  let heat_capacity := ∑ j in Finset.range n,
    volume_fractions.getD j 0 * cfg.heat_capacities j
  let thermal_diffusivity := ∑ j in Finset.range n,
    volume_fractions.getD j 0 * cfg.thermal_diffusivities j
  let viscosity := match srOpt with
    | some sr => some (average_value volume_fractions
        (calculate_isostrain_viscosities cfg volume_fractions pressure
          temperature composition sr vt yt timestep_number).1 avg)
    | none => none
  let yielding := match srOpt with
    | some sr => plastic_yielding_flag cfg volume_fractions pressure temperature
        composition sr vt yt timestep_number
    | none => false
  { density := density
    thermal_expansion_coefficient := thermal_expansivity
    specific_heat := heat_capacity
    thermal_conductivity := match adiabatic_density with
      | some rho => thermal_diffusivity * heat_capacity * rho
      | none => thermal_diffusivity * heat_capacity * density
    compressibility := 0
    entropy_derivative_pressure := 0
    entropy_derivative_temperature := 0
    viscosity := viscosity
    plastic_yielding := yielding
    reaction_terms := reaction_terms_out cfg timestep_number dt composition
      srOpt yielding
    plastic := if has_plastic_out then
        some (plastic_output_values cfg volume_fractions composition yielding)
      else none }

/-! ### Concrete configurations used to instantiate the theorems on
concrete inputs -/

/-- A concrete configuration: diffusion creep with prefactor 1/2 and no
activation energy, volume or grain-size exponent gives a pre-yield
viscosity of exactly one; friction angle zero and cohesion two give a
capped yield strength of exactly two, so a unit strain rate yields. -/
def cfgW : VPConfig where
  reference_T := 293
  min_strain_rate := 1e-20
  ref_strain_rate := 1e-15
  min_visc := 0
  max_visc := 1e28
  ref_visc := 1e22
  grain_size := 1e-3
  max_yield_strength := 1e12
  thermal_diffusivities := fun _ => 1
  heat_capacities := fun _ => 1
  densities := fun _ => 3300
  thermal_expansivities := fun _ => 0
  prefactors_diffusion := fun _ => 0.5
  grain_size_exponents_diffusion := fun _ => 0
  activation_energies_diffusion := fun _ => 0
  activation_volumes_diffusion := fun _ => 0
  prefactors_dislocation := fun _ => 1
  stress_exponents_dislocation := fun _ => 1
  activation_energies_dislocation := fun _ => 0
  activation_volumes_dislocation := fun _ => 0
  angles_internal_friction := fun _ => 0
  cohesions := fun _ => 2
  exponents_stress_limiter := fun _ => 1
  use_strain_weakening := false
  use_plastic_strain_weakening := false
  use_viscous_strain_weakening := false
  use_finite_strain_tensor := false
  start_plastic_strain_weakening_intervals := fun _ => 0
  end_plastic_strain_weakening_intervals := fun _ => 1
  start_viscous_strain_weakening_intervals := fun _ => 0
  end_viscous_strain_weakening_intervals := fun _ => 1
  viscous_strain_weakening_factors := fun _ => 1
  cohesion_strain_weakening_factors := fun _ => 1
  friction_strain_weakening_factors := fun _ => 1
  use_fixed_spcrust_viscosity := false
  maximum_spcrust_viscosity := 1e28
  spcrust_viscosity_minimum_pressure := 0
  spcrust_viscosity_maximum_pressure := 0
  use_spcrust_density_change := false
  spcrust_density_change := 0
  spcrust_density_minimum_pressure := 0
  spcrust_density_maximum_pressure := 0
  spcrust_index := 0
  plastic_strain_index := 0
  viscous_strain_index := 0
  total_strain_index := 0
  s11_index := 0

/-- cfgW with plastic strain weakening active and the default (huge)
cohesion, so that the material does not yield. -/
def cfgW8 : VPConfig :=
  { cfgW with
    use_strain_weakening := true
    use_plastic_strain_weakening := true
    cohesions := fun _ => 1e20 }

/-- cfgW with total strain weakening active. -/
def cfgW8t : VPConfig := { cfgW with use_strain_weakening := true }

end

/-! ## Helper lemmas -/

/-- getD of a mapped range, inside the range. -/
theorem getD_map_range (f : ℕ → ℝ) {n j : ℕ} (h : j < n) :
    ((List.range n).map f).getD j 0 = f j := by
  rw [List.getD_eq_getElem _ _ (by simpa using h)]
  simp

/-- The sum over Finset.range of getD is the list sum. -/
theorem sum_range_getD (l : List ℝ) :
    ∑ i in Finset.range l.length, l.getD i 0 = l.sum := by
  induction l with
  | nil => simp
  | cons x xs ih =>
    rw [List.length_cons, Finset.sum_range_succ']
    simp only [List.getD_cons_succ, List.getD_cons_zero, ih, List.sum_cons]
    ring

/-- Sum of a list divided elementwise. -/
theorem sum_map_div (l : List ℝ) (s : ℝ) :
    (l.map (fun x => x / s)).sum = l.sum / s := by
  induction l with
  | nil => simp
  | cons x xs ih => simp [ih, add_div]

/-- getD inside the range is a member of the list. -/
theorem getD_mem (l : List ℝ) (i : ℕ) (h : i < l.length) : l.getD i 0 ∈ l := by
  rw [List.getD_eq_getElem _ _ h]
  exact List.getElem_mem h

/-- The index returned by max_element_index is in range for a nonempty
list. -/
theorem max_element_index_lt_length (l : List ℝ) (h : l ≠ []) :
    max_element_index l < l.length := by
  induction l with
  | nil => exact absurd rfl h
  | cons x xs ih =>
    cases xs with
    | nil => simp [max_element_index]
    | cons y ys =>
      rw [max_element_index]
      split
      · exact Nat.succ_lt_succ (ih (by simp))
      · simp

/-- The element at max_element_index dominates every element. -/
theorem max_element_index_is_max (l : List ℝ) (i : ℕ) (hi : i < l.length) :
    l.getD i 0 ≤ l.getD (max_element_index l) 0 := by
  induction l generalizing i with
  | nil => simp at hi
  | cons x xs ih =>
    cases xs with
    | nil =>
      have : i = 0 := by simpa using Nat.lt_one_iff.mp (by simpa using hi)
      subst this
      simp [max_element_index]
    | cons y ys =>
      by_cases h : x < (y :: ys).getD (max_element_index (y :: ys)) 0
      · rw [max_element_index, if_pos h]
        cases i with
        | zero => simpa using h.le
        | succ i' =>
          have hi' : i' < (y :: ys).length := Nat.lt_of_succ_lt_succ hi
          simpa using ih i' hi'
      · rw [max_element_index, if_neg h]
        cases i with
        | zero => simp
        | succ i' =>
          have hi' : i' < (y :: ys).length := Nat.lt_of_succ_lt_succ hi
          have h2 := ih i' hi'
          simp only [List.getD_cons_succ, List.getD_cons_zero]
          exact le_trans h2 (not_lt.mp h)

/-- Every element strictly before max_element_index is strictly smaller:
the returned index is the first one attaining the maximum. -/
theorem max_element_index_first (l : List ℝ) (i : ℕ)
    (hi : i < max_element_index l) :
    l.getD i 0 < l.getD (max_element_index l) 0 := by
  induction l generalizing i with
  | nil => simp [max_element_index] at hi
  | cons x xs ih =>
    cases xs with
    | nil => simp [max_element_index] at hi
    | cons y ys =>
      by_cases h : x < (y :: ys).getD (max_element_index (y :: ys)) 0
      · rw [max_element_index, if_pos h] at hi ⊢
        cases i with
        | zero => simpa using h
        | succ i' =>
          have hi' : i' < max_element_index (y :: ys) := Nat.lt_of_succ_lt_succ hi
          simpa using ih i' hi'
      · rw [max_element_index, if_neg h] at hi
        exact absurd hi (Nat.not_lt_zero i)

/-- The clamped value of the weakening fraction stays in the interval. -/
theorem wsf_cutoff_mem (s en e : ℝ) (h : s < en) :
    s ≤ max (min e en) s ∧ max (min e en) s ≤ en :=
  ⟨le_max_right _ _, max_le (min_le_right _ _) h.le⟩

/-- The weakening strain fraction at or below the interval start. -/
theorem wsf_at_left (s en e : ℝ) (h : s < en) (he : e ≤ s) :
    weakening_strain_fraction s en e = 0 := by
  unfold weakening_strain_fraction
  rw [min_eq_left (he.trans h.le), max_eq_right he, sub_self, zero_div]

/-- The weakening strain fraction at or above the interval end. -/
theorem wsf_at_right (s en e : ℝ) (h : s < en) (he : en ≤ e) :
    weakening_strain_fraction s en e = -1 := by
  unfold weakening_strain_fraction
  rw [min_eq_right he, max_eq_left h.le,
    div_eq_iff (sub_ne_zero.mpr (ne_of_lt h))]
  ring

/-- The weakening strain fraction inside the interval: the clamp is
inactive. -/
theorem wsf_between (s en e : ℝ) (h1 : s ≤ e) (h2 : e ≤ en) :
    weakening_strain_fraction s en e = (e - s) / (s - en) := by
  unfold weakening_strain_fraction
  rw [min_eq_left h2, max_eq_left h1]

/-- The weakening strain fraction equals minus the normalized progress
through the interval. -/
theorem wsf_neg_form (s en e : ℝ) :
    weakening_strain_fraction s en e =
      -((max (min e en) s - s) / (en - s)) := by
  unfold weakening_strain_fraction
  rw [show s - en = -(en - s) by ring, div_neg]

/-- Bounds on the weakening strain fraction. -/
theorem wsf_bounds (s en e : ℝ) (h : s < en) :
    -1 ≤ weakening_strain_fraction s en e ∧
      weakening_strain_fraction s en e ≤ 0 := by
  have hmem := wsf_cutoff_mem s en e h
  have hpos : (0:ℝ) < en - s := sub_pos.mpr h
  have hg0 : 0 ≤ (max (min e en) s - s) / (en - s) :=
    div_nonneg (sub_nonneg.mpr hmem.1) hpos.le
  have hg1 : (max (min e en) s - s) / (en - s) ≤ 1 := by
    rw [div_le_one hpos]
    exact sub_le_sub_right hmem.2 s
  rw [wsf_neg_form]
  constructor
  · linarith
  · linarith

/-! ## Claim C2 -/

/-- C2: compute_volume_fractions returns a vector of size (number of
fields)+1 whose entries all lie in [0,1] and sum to one; when the clipped
compositions sum to at least one the background entry is zero and each
phase entry is its clipped value divided by the sum, otherwise the
background is one minus the sum and each phase entry is its clipped value;
for an all-zero composition the background entry equals one. -/
theorem C2_volume_fractions (comp : List ℝ) :
    (compute_volume_fractions comp).length = comp.length + 1 ∧
    (compute_volume_fractions comp).sum = 1 ∧
    (∀ y ∈ compute_volume_fractions comp, 0 ≤ y ∧ y ≤ 1) ∧
    (1 ≤ (comp.map (fun v => min (max v 0) 1)).sum →
      compute_volume_fractions comp =
        0 :: (comp.map (fun v => min (max v 0) 1)).map
          (fun v => v / (comp.map (fun v => min (max v 0) 1)).sum)) ∧
    ((comp.map (fun v => min (max v 0) 1)).sum < 1 →
      compute_volume_fractions comp =
        (1 - (comp.map (fun v => min (max v 0) 1)).sum) ::
          comp.map (fun v => min (max v 0) 1)) ∧
    ((∀ v ∈ comp, v = 0) → (compute_volume_fractions comp).getD 0 0 = 1) := by
  classical
  set x : List ℝ := comp.map (fun v => min (max v 0) 1) with hx
  set s : ℝ := x.sum with hs
  have hx01 : ∀ y ∈ x, 0 ≤ y ∧ y ≤ 1 := by
    intro y hy
    rw [hx] at hy
    obtain ⟨v, _, rfl⟩ := List.mem_map.mp hy
    exact ⟨le_min (le_max_right v 0) zero_le_one, min_le_right _ _⟩
  have hs0 : 0 ≤ s := List.sum_nonneg (fun y hy => (hx01 y hy).1)
  have hxlen : x.length = comp.length := by rw [hx]; exact List.length_map _ _
  have hdef : compute_volume_fractions comp =
      if 1 ≤ s then 0 :: x.map (fun v => v / s) else (1 - s) :: x := by
    rfl
  by_cases h1 : 1 ≤ s
  · have hcvf : compute_volume_fractions comp = 0 :: x.map (fun v => v / s) := by
      rw [hdef, if_pos h1]
    have hspos : (0:ℝ) < s := lt_of_lt_of_le one_pos h1
    refine ⟨?_, ?_, ?_, fun _ => hcvf, fun hlt => absurd hlt (not_lt.mpr h1), ?_⟩
    · rw [hcvf]
      simp [hxlen]
    · rw [hcvf, List.sum_cons, sum_map_div, div_self (ne_of_gt hspos), zero_add]
    · rw [hcvf]
      intro y hy
      rcases List.mem_cons.mp hy with rfl | hy
      · exact ⟨le_refl 0, zero_le_one⟩
      · obtain ⟨v, hv, rfl⟩ := List.mem_map.mp hy
        refine ⟨div_nonneg (hx01 v hv).1 hs0, ?_⟩
        rw [div_le_one hspos]
        exact le_trans (hx01 v hv).2 h1
    · intro hz
      exfalso
      have : s = 0 := by
        rw [hs, hx]
        apply List.sum_eq_zero
        intro y hy
        obtain ⟨v, hv, rfl⟩ := List.mem_map.mp hy
        rw [hz v hv]
        simp
      rw [this] at h1
      exact absurd h1 (by norm_num)
  · have hlt : s < 1 := not_le.mp h1
    have hcvf : compute_volume_fractions comp = (1 - s) :: x := by
      rw [hdef, if_neg h1]
    refine ⟨?_, ?_, ?_, fun hge => absurd hge h1, fun _ => hcvf, ?_⟩
    · rw [hcvf]
      simp [hxlen]
    · rw [hcvf, List.sum_cons, ← hs]
      ring
    · rw [hcvf]
      intro y hy
      rcases List.mem_cons.mp hy with rfl | hy
      · constructor <;> linarith
      · exact hx01 y hy
    · intro hz
      have hs0' : s = 0 := by
        rw [hs, hx]
        apply List.sum_eq_zero
        intro y hy
        obtain ⟨v, hv, rfl⟩ := List.mem_map.mp hy
        rw [hz v hv]
        simp
      rw [hcvf, hs0']
      simp

/-- C2 witness: the all-zero two-field composition gives background
fraction one. -/
theorem C2_witness : (compute_volume_fractions [0, 0]).getD 0 0 = 1 :=
  (C2_volume_fractions [0, 0]).2.2.2.2.2 (by
    intro v hv
    simp only [List.mem_cons, List.not_mem_nil, or_false] at hv
    rcases hv with rfl | rfl <;> rfl)

/-! ## Claim C7 -/

/-- C7 counterexample: with the interval [0,1] and strain one (the interval
end), the interpolation fraction as written in the source is -1, which does
not lie in [0,1] and is not 1. -/
theorem C7_counterexample :
    (0:ℝ) < 1 ∧ weakening_strain_fraction 0 1 1 = -1 ∧
      ¬(0 ≤ weakening_strain_fraction 0 1 1) := by
  refine ⟨by norm_num, ?_, ?_⟩ <;> norm_num [weakening_strain_fraction]

/-- C7 (amended): for end > start, the interpolation fraction
f = (clamped - start)/(start - end) lies in [-1, 0], equal to 0 at or below
the interval start, equal to -1 at or above the interval end, and on the
interval it is the linear function (e - start)/(start - end); the negative
sign cancels against the (value - value*factor) ordering in the weakening
formulas. -/
theorem C7_strain_fraction (startv endv : ℝ) (hlt : startv < endv) :
    ∀ e : ℝ,
      (-1 ≤ weakening_strain_fraction startv endv e ∧
        weakening_strain_fraction startv endv e ≤ 0) ∧
      (e ≤ startv → weakening_strain_fraction startv endv e = 0) ∧
      (endv ≤ e → weakening_strain_fraction startv endv e = -1) ∧
      (startv ≤ e → e ≤ endv →
        weakening_strain_fraction startv endv e =
          (e - startv) / (startv - endv)) := by
  intro e
  exact ⟨wsf_bounds startv endv e hlt,
    fun he => wsf_at_left startv endv e hlt he,
    fun he => wsf_at_right startv endv e hlt he,
    fun h1 h2 => wsf_between startv endv e h1 h2⟩

/-- C7 witness: on the interval [0,2], the fraction at strain 2 is -1 and
the fraction at strain 1/2 is -1/4. -/
theorem C7_witness :
    weakening_strain_fraction 0 2 2 = -1 ∧
      weakening_strain_fraction 0 2 (1/2) = (1/2 - 0) / (0 - 2) := by
  constructor
  · exact (C7_strain_fraction 0 2 (by norm_num) 2).2.2.1 (by norm_num)
  · exact (C7_strain_fraction 0 2 (by norm_num) (1/2)).2.2.2 (by norm_num)
      (by norm_num)

/-! ## Claim C4 -/

/-- C4: for a phase with weakening interval start < end and factors in
[0,1], strain at or below the interval start returns the unweakened
cohesion and friction angle and a viscous weakening of one; strain at or
above the end returns the values times their factors and the viscous
weakening equals the prefactor factor; in between the returned values
interpolate linearly between those endpoints. -/
theorem C4_weakening_endpoints (cfg : VPConfig) (j : ℕ)
    (hps : cfg.start_plastic_strain_weakening_intervals j <
      cfg.end_plastic_strain_weakening_intervals j)
    (hvs : cfg.start_viscous_strain_weakening_intervals j <
      cfg.end_viscous_strain_weakening_intervals j)
    (hcf0 : 0 ≤ cfg.cohesion_strain_weakening_factors j)
    (hcf1 : cfg.cohesion_strain_weakening_factors j ≤ 1)
    (hff0 : 0 ≤ cfg.friction_strain_weakening_factors j)
    (hff1 : cfg.friction_strain_weakening_factors j ≤ 1)
    (hvf0 : 0 ≤ cfg.viscous_strain_weakening_factors j)
    (hvf1 : cfg.viscous_strain_weakening_factors j ≤ 1) :
    ∀ e : ℝ,
      (e ≤ cfg.start_plastic_strain_weakening_intervals j →
        calculate_plastic_weakening cfg e j =
          (cfg.cohesions j, cfg.angles_internal_friction j)) ∧
      (cfg.end_plastic_strain_weakening_intervals j ≤ e →
        calculate_plastic_weakening cfg e j =
          (cfg.cohesions j * cfg.cohesion_strain_weakening_factors j,
           cfg.angles_internal_friction j *
             cfg.friction_strain_weakening_factors j)) ∧
      (cfg.start_plastic_strain_weakening_intervals j ≤ e →
        e ≤ cfg.end_plastic_strain_weakening_intervals j →
        calculate_plastic_weakening cfg e j =
          (cfg.cohesions j +
             (cfg.cohesions j * cfg.cohesion_strain_weakening_factors j -
               cfg.cohesions j) *
             ((e - cfg.start_plastic_strain_weakening_intervals j) /
              (cfg.end_plastic_strain_weakening_intervals j -
                cfg.start_plastic_strain_weakening_intervals j)),
           cfg.angles_internal_friction j +
             (cfg.angles_internal_friction j *
                 cfg.friction_strain_weakening_factors j -
               cfg.angles_internal_friction j) *
             ((e - cfg.start_plastic_strain_weakening_intervals j) /
              (cfg.end_plastic_strain_weakening_intervals j -
                cfg.start_plastic_strain_weakening_intervals j)))) ∧
      (e ≤ cfg.start_viscous_strain_weakening_intervals j →
        calculate_viscous_weakening cfg e j = 1) ∧
      (cfg.end_viscous_strain_weakening_intervals j ≤ e →
        calculate_viscous_weakening cfg e j =
          cfg.viscous_strain_weakening_factors j) ∧
      (cfg.start_viscous_strain_weakening_intervals j ≤ e →
        e ≤ cfg.end_viscous_strain_weakening_intervals j →
        calculate_viscous_weakening cfg e j =
          1 + (cfg.viscous_strain_weakening_factors j - 1) *
            ((e - cfg.start_viscous_strain_weakening_intervals j) /
             (cfg.end_viscous_strain_weakening_intervals j -
               cfg.start_viscous_strain_weakening_intervals j))) := by
  intro e
  have hpden : cfg.start_plastic_strain_weakening_intervals j -
      cfg.end_plastic_strain_weakening_intervals j =
      -(cfg.end_plastic_strain_weakening_intervals j -
        cfg.start_plastic_strain_weakening_intervals j) := by ring
  have hvden : cfg.start_viscous_strain_weakening_intervals j -
      cfg.end_viscous_strain_weakening_intervals j =
      -(cfg.end_viscous_strain_weakening_intervals j -
        cfg.start_viscous_strain_weakening_intervals j) := by ring
  refine ⟨?_, ?_, ?_, ?_, ?_, ?_⟩
  · intro he
    simp only [calculate_plastic_weakening, wsf_at_left _ _ _ hps he]
    simp
  · intro he
    simp only [calculate_plastic_weakening, wsf_at_right _ _ _ hps he,
      Prod.mk.injEq]
    constructor <;> ring
  · intro h1 h2
    simp only [calculate_plastic_weakening, wsf_between _ _ _ h1 h2, hpden,
      div_neg, Prod.mk.injEq]
    constructor <;> ring
  · intro he
    simp only [calculate_viscous_weakening, wsf_at_left _ _ _ hvs he]
    ring
  · intro he
    simp only [calculate_viscous_weakening, wsf_at_right _ _ _ hvs he]
    ring
  · intro h1 h2
    simp only [calculate_viscous_weakening, wsf_between _ _ _ h1 h2, hvden,
      div_neg]
    ring

/-- C4 witness: on the concrete configuration cfgW with strain 2 (beyond
the interval end 1), the weakened values are the unweakened ones times the
factors (all one here). -/
theorem C4_witness :
    calculate_plastic_weakening cfgW 2 0 = (2, 0) ∧
      calculate_viscous_weakening cfgW 2 0 = 1 := by
  have h := C4_weakening_endpoints cfgW 0 (by norm_num [cfgW])
    (by norm_num [cfgW]) (by norm_num [cfgW]) (by norm_num [cfgW])
    (by norm_num [cfgW]) (by norm_num [cfgW]) (by norm_num [cfgW])
    (by norm_num [cfgW]) 2
  constructor
  · rw [h.2.1 (by norm_num [cfgW])]
    norm_num [cfgW]
  · rw [h.2.2.2.2.1 (by norm_num [cfgW])]
    norm_num [cfgW]

/-! ## Claim C5 -/

/-- C5 counterexample: the friction angle pi (an angle of 180 degrees,
admitted by the parameter declaration) is positive, yet the 2-D
Drucker-Prager yield stress is not strictly increasing in the pressure:
it is constant between the pressures 0 and 1 because sin(pi) = 0. -/
theorem C5_counterexample :
    0 < Real.pi ∧ (0:ℝ) ≤ 0 ∧ (0:ℝ) < 1 ∧
      ¬(drucker_prager_yield_2d 1 Real.pi 0 <
        drucker_prager_yield_2d 1 Real.pi 1) := by
  refine ⟨Real.pi_pos, le_refl 0, by norm_num, ?_⟩
  unfold drucker_prager_yield_2d
  rw [Real.sin_pi]
  simp

/-- C5 (amended): in 2-D, with friction angle zero the Drucker-Prager
yield stress equals the cohesion exactly for every pressure P at least 0;
and for a friction angle strictly between 0 and pi (so that its sine is
positive) the yield stress is strictly increasing in the pressure over
nonnegative pressures. -/
theorem C5_yield_stress :
    (∀ C P : ℝ, 0 ≤ P → drucker_prager_yield_2d C 0 P = C) ∧
    (∀ C phi P1 P2 : ℝ, 0 < phi → phi < Real.pi → 0 ≤ P1 → P1 < P2 →
      drucker_prager_yield_2d C phi P1 < drucker_prager_yield_2d C phi P2) := by
  constructor
  · intro C P _
    unfold drucker_prager_yield_2d
    rw [Real.cos_zero, Real.sin_zero]
    ring
  · intro C phi P1 P2 h0 hpi hP1 h12
    unfold drucker_prager_yield_2d
    have hs : 0 < Real.sin phi := Real.sin_pos_of_pos_of_lt_pi h0 hpi
    rw [max_eq_left hP1, max_eq_left (hP1.trans h12.le)]
    have := mul_lt_mul_of_pos_right h12 hs
    linarith

/-- C5 witness: yield stress 5 at cohesion 5, friction angle 0, pressure 3;
and strictly increasing from pressure 0 to 1 at friction angle pi/2. -/
theorem C5_witness :
    drucker_prager_yield_2d 5 0 3 = 5 ∧
      drucker_prager_yield_2d 1 (Real.pi / 2) 0 <
        drucker_prager_yield_2d 1 (Real.pi / 2) 1 := by
  constructor
  · exact C5_yield_stress.1 5 3 (by norm_num)
  · exact C5_yield_stress.2 1 (Real.pi / 2) 0 1 (by positivity)
      (half_lt_self Real.pi_pos) le_rfl (by norm_num)

/-! ## Claim C3 -/

/-- C3: for nonnegative volume fractions summing to one and phase values
bounded between positive m and M, average_value stays within [m, M] under
each of the four schemes; taking m and M to be the smallest and largest
phase value gives the claim. -/
theorem C3_averaging_bounds (w v : List ℝ) (m M : ℝ)
    (hlen : w.length = v.length) (hne : v ≠ [])
    (hw : ∀ x ∈ w, 0 ≤ x) (hsum : w.sum = 1)
    (hm : ∀ x ∈ v, m ≤ x) (hM : ∀ x ∈ v, x ≤ M) (hm0 : 0 < m) :
    ∀ s : AveragingScheme,
      m ≤ average_value w v s ∧ average_value w v s ≤ M := by
  classical
  have hWsum : ∑ i in Finset.range w.length, w.getD i 0 = 1 := by
    rw [sum_range_getD]; exact hsum
  have hw0 : ∀ i ∈ Finset.range w.length, 0 ≤ w.getD i 0 := fun i hi =>
    hw _ (getD_mem w i (Finset.mem_range.mp hi))
  have hvm : ∀ i ∈ Finset.range w.length, m ≤ v.getD i 0 := fun i hi =>
    hm _ (getD_mem v i (hlen ▸ Finset.mem_range.mp hi))
  have hvM : ∀ i ∈ Finset.range w.length, v.getD i 0 ≤ M := fun i hi =>
    hM _ (getD_mem v i (hlen ▸ Finset.mem_range.mp hi))
  have hvpos : ∀ i ∈ Finset.range w.length, 0 < v.getD i 0 := fun i hi =>
    lt_of_lt_of_le hm0 (hvm i hi)
  have hmM : m ≤ M := by
    obtain ⟨a, ha⟩ : ∃ a, a ∈ v := by
      cases v with
      | nil => exact absurd rfl hne
      | cons a l => exact ⟨a, by simp⟩
    exact le_trans (hm a ha) (hM a ha)
  have hM0 : 0 < M := lt_of_lt_of_le hm0 hmM
  intro s
  cases s with
  | arithmetic =>
    simp only [average_value]
    constructor
    · calc m = (∑ i in Finset.range w.length, w.getD i 0) * m := by
            rw [hWsum, one_mul]
        _ = ∑ i in Finset.range w.length, w.getD i 0 * m := by
            rw [Finset.sum_mul]
        _ ≤ ∑ i in Finset.range w.length, w.getD i 0 * v.getD i 0 :=
            Finset.sum_le_sum fun i hi =>
              mul_le_mul_of_nonneg_left (hvm i hi) (hw0 i hi)
    · calc ∑ i in Finset.range w.length, w.getD i 0 * v.getD i 0
          ≤ ∑ i in Finset.range w.length, w.getD i 0 * M :=
            Finset.sum_le_sum fun i hi =>
              mul_le_mul_of_nonneg_left (hvM i hi) (hw0 i hi)
        _ = (∑ i in Finset.range w.length, w.getD i 0) * M := by
            rw [Finset.sum_mul]
        _ = M := by rw [hWsum, one_mul]
  | harmonic =>
    simp only [average_value]
    have hub : (∑ i in Finset.range w.length, w.getD i 0 / v.getD i 0) ≤ 1 / m := by
      calc ∑ i in Finset.range w.length, w.getD i 0 / v.getD i 0
          ≤ ∑ i in Finset.range w.length, w.getD i 0 / m :=
            Finset.sum_le_sum fun i hi =>
              div_le_div_of_nonneg_left (hw0 i hi) hm0 (hvm i hi)
        _ = (∑ i in Finset.range w.length, w.getD i 0) / m := by
            rw [Finset.sum_div]
        _ = 1 / m := by rw [hWsum]
    have hlb : 1 / M ≤ ∑ i in Finset.range w.length, w.getD i 0 / v.getD i 0 := by
      calc (1:ℝ) / M = (∑ i in Finset.range w.length, w.getD i 0) / M := by
            rw [hWsum]
        _ = ∑ i in Finset.range w.length, w.getD i 0 / M := by
            rw [Finset.sum_div]
        _ ≤ ∑ i in Finset.range w.length, w.getD i 0 / v.getD i 0 :=
            Finset.sum_le_sum fun i hi =>
              div_le_div_of_nonneg_left (hw0 i hi) (hvpos i hi) (hvM i hi)
    have hSpos : 0 < ∑ i in Finset.range w.length, w.getD i 0 / v.getD i 0 :=
      lt_of_lt_of_le (by positivity) hlb
    constructor
    · rw [le_div_iff₀ hSpos]
      calc m * (∑ i in Finset.range w.length, w.getD i 0 / v.getD i 0)
          ≤ m * (1 / m) := mul_le_mul_of_nonneg_left hub hm0.le
        _ = 1 := by field_simp
    · rw [div_le_iff₀ hSpos]
      calc (1:ℝ) = M * (1 / M) := by field_simp
        _ ≤ M * (∑ i in Finset.range w.length, w.getD i 0 / v.getD i 0) :=
            mul_le_mul_of_nonneg_left hlb hM0.le
  | geometric =>
    simp only [average_value]
    have hub : (∑ i in Finset.range w.length,
        w.getD i 0 * Real.log (v.getD i 0)) ≤ Real.log M := by
      calc ∑ i in Finset.range w.length, w.getD i 0 * Real.log (v.getD i 0)
          ≤ ∑ i in Finset.range w.length, w.getD i 0 * Real.log M :=
            Finset.sum_le_sum fun i hi =>
              mul_le_mul_of_nonneg_left
                (Real.log_le_log (hvpos i hi) (hvM i hi)) (hw0 i hi)
        _ = Real.log M := by rw [← Finset.sum_mul, hWsum, one_mul]
    have hlb : Real.log m ≤ ∑ i in Finset.range w.length,
        w.getD i 0 * Real.log (v.getD i 0) := by
      calc Real.log m
          = ∑ i in Finset.range w.length, w.getD i 0 * Real.log m := by
            rw [← Finset.sum_mul, hWsum, one_mul]
        _ ≤ ∑ i in Finset.range w.length, w.getD i 0 * Real.log (v.getD i 0) :=
            Finset.sum_le_sum fun i hi =>
              mul_le_mul_of_nonneg_left
                (Real.log_le_log hm0 (hvm i hi)) (hw0 i hi)
    constructor
    · calc m = Real.exp (Real.log m) := (Real.exp_log hm0).symm
        _ ≤ _ := Real.exp_le_exp.mpr hlb
    · calc Real.exp (∑ i in Finset.range w.length,
            w.getD i 0 * Real.log (v.getD i 0))
          ≤ Real.exp (Real.log M) := Real.exp_le_exp.mpr hub
        _ = M := Real.exp_log hM0
  | maximum_composition =>
    simp only [average_value]
    have hwne : w ≠ [] := by
      intro h
      rw [h] at hlen
      exact hne (List.eq_nil_of_length_eq_zero hlen.symm)
    have hidx : max_element_index w < v.length :=
      hlen ▸ max_element_index_lt_length w hwne
    have hmem := getD_mem v _ hidx
    exact ⟨hm _ hmem, hM _ hmem⟩

/-- C3 witness: with fractions [1/2, 1/2] and values [1, 2], the
arithmetic average lies in [1, 2]. -/
theorem C3_witness :
    1 ≤ average_value [1/2, 1/2] [1, 2] .arithmetic ∧
      average_value [1/2, 1/2] [1, 2] .arithmetic ≤ 2 := by
  refine C3_averaging_bounds [1/2, 1/2] [1, 2] 1 2 rfl (by simp)
    ?_ ?_ ?_ ?_ (by norm_num) .arithmetic
  · intro x hx
    simp only [List.mem_cons, List.not_mem_nil, or_false] at hx
    rcases hx with rfl | rfl <;> norm_num
  · norm_num
  · intro x hx
    simp only [List.mem_cons, List.not_mem_nil, or_false] at hx
    rcases hx with rfl | rfl <;> norm_num
  · intro x hx
    simp only [List.mem_cons, List.not_mem_nil, or_false] at hx
    rcases hx with rfl | rfl <;> norm_num

/-! ## Claim C9 -/

/-- The per-phase yielding indicator is zero or one. -/
theorem phase_yielding_mem (cfg : VPConfig) (vt : ViscosityScheme)
    (P T edot : ℝ) (comp : List ℝ) (j : ℕ) :
    phase_yielding cfg vt P T edot comp j = 0 ∨
      phase_yielding cfg vt P T edot comp j = 1 := by
  unfold phase_yielding
  split_ifs <;> simp

/-- C9: average_value under maximum_composition returns the parameter value
of the phase with the largest volume fraction, ties resolved towards the
first occurrence (every earlier phase has a strictly smaller fraction);
consequently the per-point plastic yielding flag is set exactly when the
yielding indicator of that first-largest-fraction phase is one. -/
theorem C9_maximum_composition (w v : List ℝ)
    (cfg : VPConfig) (vf : List ℝ) (P T : ℝ) (comp : List ℝ)
    (sr : SymTensor2) (vt : ViscosityScheme) (yt : YieldScheme) (ts : ℕ)
    (hvf : vf ≠ []) :
    average_value w v .maximum_composition =
        v.getD (max_element_index w) 0 ∧
    (∀ i, i < w.length →
        w.getD i 0 ≤ w.getD (max_element_index w) 0) ∧
    (∀ i, i < max_element_index w →
        w.getD i 0 < w.getD (max_element_index w) 0) ∧
    (plastic_yielding_flag cfg vf P T comp sr vt yt ts = true ↔
      (calculate_isostrain_viscosities cfg vf P T comp sr vt yt ts).2.getD
        (max_element_index vf) 0 = 1) := by
  refine ⟨rfl, fun i hi => max_element_index_is_max w i hi,
    fun i hi => max_element_index_first w i hi, ?_⟩
  unfold plastic_yielding_flag
  have hidx : max_element_index vf < vf.length :=
    max_element_index_lt_length vf hvf
  have hyl : (calculate_isostrain_viscosities cfg vf P T comp sr vt yt ts).2 =
      (List.range vf.length).map
        (fun j => phase_yielding cfg vt P T (edot_ii_value cfg ts sr) comp j) :=
    rfl
  have havg : average_value vf
      (calculate_isostrain_viscosities cfg vf P T comp sr vt yt ts).2
      .maximum_composition =
      (calculate_isostrain_viscosities cfg vf P T comp sr vt yt ts).2.getD
        (max_element_index vf) 0 := rfl
  rw [havg, hyl, getD_map_range _ hidx]
  rcases phase_yielding_mem cfg vt P T (edot_ii_value cfg ts sr) comp
      (max_element_index vf) with h0 | h1
  · rw [h0]
    simp
  · rw [h1]
    simp

/-- C9 witness: fractions [1/2, 1/2] and values [3, 7]: the tie goes to
the first phase, returning 3; and the flag equivalence instantiated at a
concrete pipeline input. -/
theorem C9_witness :
    average_value [1/2, 1/2] [3, 7] .maximum_composition = 3 ∧
      (plastic_yielding_flag cfgW [1] 0 293 [] ⟨0, 0, 1⟩ .diffusion
          .drucker_prager 1 = true ↔
        (calculate_isostrain_viscosities cfgW [1] 0 293 [] ⟨0, 0, 1⟩
            .diffusion .drucker_prager 1).2.getD (max_element_index [1]) 0 = 1) := by
  have h := C9_maximum_composition [1/2, 1/2] [3, 7] cfgW [1] 0 293 []
    ⟨0, 0, 1⟩ .diffusion .drucker_prager 1 (by simp)
  refine ⟨?_, h.2.2.2⟩
  rw [h.1]
  norm_num [max_element_index]

/-! ## Claim C1 -/

/-- C1: in the Drucker-Prager branch, for every phase j, when the viscous
stress 2*viscosity_pre_yield*edot_ii reaches the capped yield strength the
yielding indicator is 1 and the yield-stage viscosity is the capped yield
strength over (2*edot_ii); otherwise the indicator is 0 and the yield-stage
viscosity is the unchanged pre-yield viscosity. -/
theorem C1_drucker_prager (cfg : VPConfig) (vf : List ℝ) (P T : ℝ)
    (comp : List ℝ) (sr : SymTensor2) (vt : ViscosityScheme) (ts : ℕ)
    (j : ℕ) (hj : j < vf.length) :
    (phase_yield_strength cfg comp P j ≤
        2 * viscosity_pre_yield cfg vt P T (edot_ii_value cfg ts sr) comp j *
          edot_ii_value cfg ts sr →
      (calculate_isostrain_viscosities cfg vf P T comp sr vt .drucker_prager
          ts).2.getD j 0 = 1 ∧
      phase_viscosity_yield cfg vt .drucker_prager P T
          (edot_ii_value cfg ts sr) comp j =
        phase_yield_strength cfg comp P j / (2 * edot_ii_value cfg ts sr)) ∧
    (2 * viscosity_pre_yield cfg vt P T (edot_ii_value cfg ts sr) comp j *
          edot_ii_value cfg ts sr < phase_yield_strength cfg comp P j →
      (calculate_isostrain_viscosities cfg vf P T comp sr vt .drucker_prager
          ts).2.getD j 0 = 0 ∧
      phase_viscosity_yield cfg vt .drucker_prager P T
          (edot_ii_value cfg ts sr) comp j =
        viscosity_pre_yield cfg vt P T (edot_ii_value cfg ts sr) comp j) := by
  have h2 : (calculate_isostrain_viscosities cfg vf P T comp sr vt
      .drucker_prager ts).2 =
      (List.range vf.length).map
        (fun j => phase_yielding cfg vt P T (edot_ii_value cfg ts sr) comp j) :=
    rfl
  have h3 : phase_viscosity_yield cfg vt .drucker_prager P T
      (edot_ii_value cfg ts sr) comp j =
      phase_viscosity_drucker_prager cfg vt P T (edot_ii_value cfg ts sr)
        comp j := rfl
  constructor
  · intro hy
    refine ⟨?_, ?_⟩
    · rw [h2, getD_map_range _ hj]
      unfold phase_yielding
      rw [if_pos hy]
    · rw [h3]
      unfold phase_viscosity_drucker_prager
      rw [if_pos hy]
  · intro hy
    have hy' := not_le.mpr hy
    refine ⟨?_, ?_⟩
    · rw [h2, getD_map_range _ hj]
      unfold phase_yielding
      rw [if_neg hy']
    · rw [h3]
      unfold phase_viscosity_drucker_prager
      rw [if_neg hy']

/-! ### Concrete evaluations on cfgW (shared by several witnesses and
counterexamples) -/

/-- At timestep 1 with the unit-shear strain rate, edot_ii is exactly 1. -/
theorem cfgW_edot : edot_ii_value cfgW 1 ⟨0, 0, 1⟩ = 1 := by
  unfold edot_ii_value
  rw [if_neg (by simp)]
  have h1 : ((⟨0, 0, 1⟩ : SymTensor2).deviator).second_invariant = -1 := by
    norm_num [SymTensor2.deviator, SymTensor2.second_invariant,
      SymTensor2.trace]
  rw [h1, show |(-1:ℝ)| = 1 by norm_num, Real.sqrt_one]
  rw [max_eq_left (by norm_num [cfgW])]

/-- On cfgW with the diffusion flow law the pre-yield viscosity is exactly
1, independent of pressure, temperature, strain rate and composition. -/
theorem cfgW_pre (P T edot : ℝ) (comp : List ℝ) (j : ℕ) :
    viscosity_pre_yield cfgW .diffusion P T edot comp j = 1 := by
  unfold viscosity_pre_yield spcrust_adjust phase_viscous_weakening
  have hflow : viscosity_flow cfgW .diffusion P T edot j =
      viscosity_diffusion cfgW P T j := rfl
  rw [hflow]
  unfold viscosity_diffusion
  norm_num [cfgW, Real.rpow_zero, Real.exp_zero]

/-- On cfgW the capped yield strength is exactly 2. -/
theorem cfgW_yield (P : ℝ) (comp : List ℝ) (j : ℕ) :
    phase_yield_strength cfgW comp P j = 2 := by
  unfold phase_yield_strength phase_cohesion_phi drucker_prager_yield_2d
  norm_num [cfgW, Real.cos_zero, Real.sin_zero]

/-- C1 witness: on cfgW at unit strain rate the viscous stress 2 reaches
the capped yield strength 2, the phase is marked yielding and the
yield-stage viscosity is rescaled to the yield surface. -/
theorem C1_witness :
    (calculate_isostrain_viscosities cfgW [1] 0 293 [] ⟨0, 0, 1⟩ .diffusion
        .drucker_prager 1).2.getD 0 0 = 1 ∧
    phase_viscosity_yield cfgW .diffusion .drucker_prager 0 293
        (edot_ii_value cfgW 1 ⟨0, 0, 1⟩) [] 0 =
      phase_yield_strength cfgW [] 0 0 /
        (2 * edot_ii_value cfgW 1 ⟨0, 0, 1⟩) := by
  have h := (C1_drucker_prager cfgW [1] 0 293 [] ⟨0, 0, 1⟩ .diffusion 1 0
    (by simp)).1
  exact h (by rw [cfgW_edot, cfgW_pre, cfgW_yield]; norm_num)

/-! ## Claim C6 -/

/-- The strain-rate tensor perturbed in the off-diagonal component on cfgW:
the unit component grows by 1e-7. -/
theorem cfgW_pert_sr :
    perturbed_strain_rate cfgW ⟨0, 0, 1⟩ 2 = ⟨0, 0, 1 + 1e-7⟩ := by
  unfold perturbed_strain_rate SymTensor2.addScaled basis_tensor
  have hc : (⟨0, 0, 1⟩ : SymTensor2).comp 2 = 1 := rfl
  rw [hc]
  norm_num [cfgW, fd_accuracy]

/-- edot_ii at the perturbed strain rate. -/
theorem cfgW_edotp : edot_ii_value cfgW 1 ⟨0, 0, 1 + 1e-7⟩ = 1 + 1e-7 := by
  unfold edot_ii_value
  rw [if_neg (by simp)]
  have h1 : ((⟨0, 0, 1 + 1e-7⟩ : SymTensor2).deviator).second_invariant =
      -((1 + 1e-7) ^ 2) := by
    norm_num [SymTensor2.deviator, SymTensor2.second_invariant,
      SymTensor2.trace]
  rw [h1, abs_neg, abs_of_nonneg (by positivity),
    Real.sqrt_sq (by norm_num)]
  rw [max_eq_left (by norm_num [cfgW])]

/-- The unperturbed per-phase viscosity on cfgW is exactly 1. -/
theorem cfgW_base_visc :
    (calculate_isostrain_viscosities cfgW [1] 0 293 [] ⟨0, 0, 1⟩ .diffusion
        .drucker_prager 1).1.getD 0 0 = 1 := by
  have h1 : (calculate_isostrain_viscosities cfgW [1] 0 293 [] ⟨0, 0, 1⟩
      .diffusion .drucker_prager 1).1 =
      (List.range 1).map (fun j => phase_viscosity cfgW .diffusion
        .drucker_prager 0 293 (edot_ii_value cfgW 1 ⟨0, 0, 1⟩) [] j) := rfl
  rw [h1, getD_map_range _ (by norm_num)]
  unfold phase_viscosity
  have h3 : phase_viscosity_yield cfgW .diffusion .drucker_prager 0 293
      (edot_ii_value cfgW 1 ⟨0, 0, 1⟩) [] 0 =
      phase_viscosity_drucker_prager cfgW .diffusion 0 293
        (edot_ii_value cfgW 1 ⟨0, 0, 1⟩) [] 0 := rfl
  rw [h3]
  unfold phase_viscosity_drucker_prager
  rw [cfgW_edot, cfgW_pre, cfgW_yield,
    if_pos (by norm_num : (2:ℝ) ≤ 2 * 1 * 1)]
  norm_num [cfgW]

/-- The perturbed per-phase viscosity on cfgW. -/
theorem cfgW_pert_visc :
    (calculate_isostrain_viscosities cfgW [1] 0 293 [] ⟨0, 0, 1 + 1e-7⟩
        .diffusion .drucker_prager 1).1.getD 0 0 = 2 / (2 * (1 + 1e-7)) := by
  have h1 : (calculate_isostrain_viscosities cfgW [1] 0 293 []
      ⟨0, 0, 1 + 1e-7⟩ .diffusion .drucker_prager 1).1 =
      (List.range 1).map (fun j => phase_viscosity cfgW .diffusion
        .drucker_prager 0 293 (edot_ii_value cfgW 1 ⟨0, 0, 1 + 1e-7⟩) [] j) :=
    rfl
  rw [h1, getD_map_range _ (by norm_num)]
  unfold phase_viscosity
  have h3 : phase_viscosity_yield cfgW .diffusion .drucker_prager 0 293
      (edot_ii_value cfgW 1 ⟨0, 0, 1 + 1e-7⟩) [] 0 =
      phase_viscosity_drucker_prager cfgW .diffusion 0 293
        (edot_ii_value cfgW 1 ⟨0, 0, 1 + 1e-7⟩) [] 0 := rfl
  rw [h3]
  unfold phase_viscosity_drucker_prager
  rw [cfgW_edotp, cfgW_pre, cfgW_yield,
    if_pos (by norm_num : (2:ℝ) ≤ 2 * 1 * (1 + 1e-7))]
  norm_num [cfgW]

/-- C6 (amended): each strain-rate component is perturbed by
max(abs(component), min_strain_rate)*1e-7; the derivative entry is zero
exactly when the per-phase viscosity delta is zero, and for a nonzero
delta the entry times max(abs(perturbed component), min_strain_rate)*1e-7
recovers the delta: the divisor is computed from the perturbed tensor's
component, not from the original perturbation magnitude. -/
theorem C6_fd_derivative (cfg : VPConfig) (vf : List ℝ) (P T : ℝ)
    (comp : List ℝ) (sr : SymTensor2) (vt : ViscosityScheme)
    (yt : YieldScheme) (ts k j : ℕ) (hmin : 0 < cfg.min_strain_rate)
    (hk : k < 3) :
    ((perturbed_strain_rate cfg sr k).comp k =
        sr.comp k + max |sr.comp k| cfg.min_strain_rate * fd_accuracy) ∧
    (fd_viscosity_derivative cfg vf P T comp sr vt yt ts k j = 0 ↔
      (calculate_isostrain_viscosities cfg vf P T comp
            (perturbed_strain_rate cfg sr k) vt yt ts).1.getD j 0 -
          (calculate_isostrain_viscosities cfg vf P T comp sr vt yt
            ts).1.getD j 0 = 0) ∧
    ((calculate_isostrain_viscosities cfg vf P T comp
          (perturbed_strain_rate cfg sr k) vt yt ts).1.getD j 0 -
        (calculate_isostrain_viscosities cfg vf P T comp sr vt yt ts).1.getD
          j 0 ≠ 0 →
      fd_viscosity_derivative cfg vf P T comp sr vt yt ts k j *
          (max |(perturbed_strain_rate cfg sr k).comp k| cfg.min_strain_rate *
            fd_accuracy) =
        (calculate_isostrain_viscosities cfg vf P T comp
            (perturbed_strain_rate cfg sr k) vt yt ts).1.getD j 0 -
          (calculate_isostrain_viscosities cfg vf P T comp sr vt yt
            ts).1.getD j 0) := by
  have hD : 0 < max |(perturbed_strain_rate cfg sr k).comp k|
      cfg.min_strain_rate * fd_accuracy := by
    apply mul_pos (lt_of_lt_of_le hmin (le_max_right _ _))
    norm_num [fd_accuracy]
  refine ⟨?_, ?_, ?_⟩
  · interval_cases k <;>
      simp [perturbed_strain_rate, SymTensor2.addScaled, basis_tensor,
        SymTensor2.comp]
  · simp only [fd_viscosity_derivative]
    split_ifs with h
    · exact ⟨fun _ => h, fun _ => rfl⟩
    · constructor
      · intro h0
        rcases div_eq_zero_iff.mp h0 with h1 | h1
        · exact h1
        · exact absurd h1 hD.ne'
      · intro h0
        exact absurd h0 h
  · intro hd
    simp only [fd_viscosity_derivative]
    rw [if_neg hd]
    exact div_mul_cancel₀ _ hD.ne'

/-- C6 witness: on cfgW the viscosity delta under perturbation of the
off-diagonal component is nonzero, and the derivative entry times the
divisor of the source recovers it. -/
theorem C6_witness :
    fd_viscosity_derivative cfgW [1] 0 293 [] ⟨0, 0, 1⟩ .diffusion
        .drucker_prager 1 2 0 *
        (max |(perturbed_strain_rate cfgW ⟨0, 0, 1⟩ 2).comp 2|
            cfgW.min_strain_rate * fd_accuracy) =
      (calculate_isostrain_viscosities cfgW [1] 0 293 []
          (perturbed_strain_rate cfgW ⟨0, 0, 1⟩ 2) .diffusion
          .drucker_prager 1).1.getD 0 0 -
        (calculate_isostrain_viscosities cfgW [1] 0 293 [] ⟨0, 0, 1⟩
          .diffusion .drucker_prager 1).1.getD 0 0 := by
  refine (C6_fd_derivative cfgW [1] 0 293 [] ⟨0, 0, 1⟩ .diffusion
    .drucker_prager 1 2 0 (by norm_num [cfgW]) (by norm_num)).2.2 ?_
  rw [cfgW_pert_sr, cfgW_pert_visc, cfgW_base_visc]
  norm_num

/-- C6 counterexample: on cfgW, the computed derivative entry differs from
the viscosity delta divided by the original perturbation magnitude
max(abs(component), min_strain_rate)*1e-7 claimed by the specification,
because the source divides by the perturbed component's magnitude. -/
theorem C6_counterexample :
    fd_viscosity_derivative cfgW [1] 0 293 [] ⟨0, 0, 1⟩ .diffusion
        .drucker_prager 1 2 0 ≠
      ((calculate_isostrain_viscosities cfgW [1] 0 293 []
           (perturbed_strain_rate cfgW ⟨0, 0, 1⟩ 2) .diffusion
           .drucker_prager 1).1.getD 0 0 -
         (calculate_isostrain_viscosities cfgW [1] 0 293 [] ⟨0, 0, 1⟩
           .diffusion .drucker_prager 1).1.getD 0 0) /
        (max |(⟨0, 0, 1⟩ : SymTensor2).comp 2| cfgW.min_strain_rate *
          fd_accuracy) := by
  have hdelta : (calculate_isostrain_viscosities cfgW [1] 0 293 []
      (perturbed_strain_rate cfgW ⟨0, 0, 1⟩ 2) .diffusion
        .drucker_prager 1).1.getD 0 0 -
      (calculate_isostrain_viscosities cfgW [1] 0 293 [] ⟨0, 0, 1⟩ .diffusion
        .drucker_prager 1).1.getD 0 0 = 2 / (2 * (1 + 1e-7)) - 1 := by
    rw [cfgW_pert_sr, cfgW_pert_visc, cfgW_base_visc]
  have hcomp : |(⟨0, 0, (1:ℝ) + 1e-7⟩ : SymTensor2).comp 2| = 1 + 1e-7 := by
    rw [show (⟨0, 0, (1:ℝ) + 1e-7⟩ : SymTensor2).comp 2 = 1 + 1e-7 from rfl,
      abs_of_nonneg (by norm_num)]
  have hlhs : fd_viscosity_derivative cfgW [1] 0 293 [] ⟨0, 0, 1⟩ .diffusion
      .drucker_prager 1 2 0 =
      (2 / (2 * (1 + 1e-7)) - 1) / ((1 + 1e-7) * fd_accuracy) := by
    simp only [fd_viscosity_derivative]
    rw [cfgW_pert_sr, cfgW_pert_visc, cfgW_base_visc,
      if_neg (by norm_num : ¬((2:ℝ) / (2 * (1 + 1e-7)) - 1 = 0))]
    rw [hcomp, max_eq_left (by norm_num [cfgW])]
  have hcomp1 : |(⟨0, 0, (1:ℝ)⟩ : SymTensor2).comp 2| = 1 := by
    rw [show (⟨0, 0, (1:ℝ)⟩ : SymTensor2).comp 2 = 1 from rfl, abs_one]
  rw [hlhs, hdelta, hcomp1, max_eq_left (by norm_num [cfgW])]
  norm_num [fd_accuracy]

/-! ## Claim C8 -/

/-- getD on a replicate of zeros is zero. -/
theorem getD_replicate_zero (n c : ℕ) :
    (List.replicate n (0:ℝ)).getD c 0 = 0 := by
  by_cases h : c < n
  · rw [List.getD_eq_getElem _ _ (by simpa using h)]
    simp
  · rw [List.getD_eq_default _ _ (by simpa using not_lt.mp h)]

/-- getD after set at the written index. -/
theorem getD_set_self (l : List ℝ) (i : ℕ) (a : ℝ) (h : i < l.length) :
    (l.set i a).getD i 0 = a := by
  rw [List.getD_eq_getElem _ _ (by simpa using h)]
  simp [List.getElem_set]

/-- getD after set at a different index. -/
theorem getD_set_ne (l : List ℝ) (i c : ℕ) (a : ℝ) (h : i ≠ c) :
    (l.set i a).getD c 0 = l.getD c 0 := by
  by_cases hc : c < l.length
  · rw [List.getD_eq_getElem _ _ (by simpa using hc),
      List.getD_eq_getElem _ _ hc]
    simp [List.getElem_set, h]
  · rw [List.getD_eq_default _ _ (by simpa using not_lt.mp hc),
      List.getD_eq_default _ _ (not_lt.mp hc)]

/-- Square root of the absolute second invariant of the deviator of the
unit-shear strain rate. -/
theorem sqrt_second_inv_unit :
    Real.sqrt |((⟨0, 0, 1⟩ : SymTensor2).deviator).second_invariant| = 1 := by
  have h1 : ((⟨0, 0, 1⟩ : SymTensor2).deviator).second_invariant = -1 := by
    norm_num [SymTensor2.deviator, SymTensor2.second_invariant,
      SymTensor2.trace]
  rw [h1, show |(-1:ℝ)| = 1 by norm_num, Real.sqrt_one]

/-- edot_ii at the unit-shear strain rate for any nonzero timestep number
and small enough minimum strain rate. -/
theorem edot_unit (cfg : VPConfig) (ts : ℕ) (hts : ts ≠ 0)
    (hmin : cfg.min_strain_rate ≤ 1) :
    edot_ii_value cfg ts ⟨0, 0, 1⟩ = 1 := by
  unfold edot_ii_value
  rw [if_neg (by simp [hts]), sqrt_second_inv_unit, max_eq_left hmin]

/-- getElem?-getD after set at a different index. -/
theorem getE_set_ne (l : List ℝ) (i c : ℕ) (a : ℝ) (h : c ≠ i) :
    (l.set i a)[c]?.getD 0 = l[c]?.getD 0 := by
  rw [List.getElem?_set_ne (Ne.symm h)]

/-- getElem?-getD on a replicate of zeros. -/
theorem getE_replicate (n c : ℕ) :
    (List.replicate n (0:ℝ))[c]?.getD 0 = 0 := by
  rcases lt_or_ge c n with h | h
  · rw [List.getElem?_eq_getElem (by simpa using h)]
    simp
  · rw [List.getElem?_eq_none (by simpa using h)]
    rfl

/-- C8 (amended): with a scalar strain-tracking mode, a positive timestep
number and a supplied strain rate, every reaction term is zero except the
tracked strain field's, which receives edot_ii*dt - for plastic-strain
tracking only when the point is plastically yielding, for viscous-strain
tracking only when it is not yielding, and for total-strain tracking
always. -/
theorem C8_reaction_terms (cfg : VPConfig) (vt : ViscosityScheme)
    (yt : YieldScheme) (avg : AveragingScheme) (ts : ℕ) (dt T P : ℝ)
    (comp : List ℝ) (sr : SymTensor2) (ad : Option ℝ) (hpo : Bool)
    (hsw : cfg.use_strain_weakening = true)
    (hft : cfg.use_finite_strain_tensor = false) (hts : 0 < ts)
    (hpi : cfg.plastic_strain_index < comp.length)
    (hvi : cfg.viscous_strain_index < comp.length)
    (hti : cfg.total_strain_index < comp.length) :
    ∀ c, c < comp.length →
      (evaluatePoint cfg vt yt avg ts dt T P comp (some sr) ad
          hpo).reaction_terms.getD c 0 =
        if (cfg.use_plastic_strain_weakening = true ∧
              (evaluatePoint cfg vt yt avg ts dt T P comp (some sr) ad
                hpo).plastic_yielding = true ∧
              c = cfg.plastic_strain_index) ∨
           (cfg.use_viscous_strain_weakening = true ∧
              (evaluatePoint cfg vt yt avg ts dt T P comp (some sr) ad
                hpo).plastic_yielding = false ∧
              c = cfg.viscous_strain_index) ∨
           (cfg.use_plastic_strain_weakening = false ∧
              cfg.use_viscous_strain_weakening = false ∧
              c = cfg.total_strain_index)
        then max (Real.sqrt |sr.deviator.second_invariant|)
               cfg.min_strain_rate * dt
        else 0 := by
  intro c hc
  have hre : (evaluatePoint cfg vt yt avg ts dt T P comp (some sr) ad
      hpo).reaction_terms =
      reaction_terms_out cfg ts dt comp (some sr)
        (plastic_yielding_flag cfg
          (compute_volume_fractions_masked comp (composition_mask cfg)) P T
          comp sr vt yt ts) := rfl
  have hpl : (evaluatePoint cfg vt yt avg ts dt T P comp (some sr) ad
      hpo).plastic_yielding =
      plastic_yielding_flag cfg
        (compute_volume_fractions_masked comp (composition_mask cfg)) P T
        comp sr vt yt ts := rfl
  rw [hre, hpl]
  set flag := plastic_yielding_flag cfg
    (compute_volume_fractions_masked comp (composition_mask cfg)) P T comp sr
    vt yt ts with hflagdef
  simp only [reaction_terms_out]
  rw [if_pos ⟨hsw, hft, hts⟩]
  cases hp : cfg.use_plastic_strain_weakening with
  | true =>
    cases hy : flag with
    | true =>
      by_cases hcidx : c = cfg.plastic_strain_index
      · subst hcidx
        simp [getD_set_self, hpi]
      · simp [getE_set_ne, getE_replicate, hcidx]
    | false =>
      cases hv : cfg.use_viscous_strain_weakening with
      | true =>
        by_cases hcidx : c = cfg.viscous_strain_index
        · subst hcidx
          simp [getD_set_self, hvi]
        · simp [getE_set_ne, getE_replicate, hcidx]
      | false =>
        simp [getE_replicate]
  | false =>
    cases hv : cfg.use_viscous_strain_weakening with
    | true =>
      cases hy : flag with
      | false =>
        by_cases hcidx : c = cfg.viscous_strain_index
        · subst hcidx
          simp [getD_set_self, hvi]
        · simp [getE_set_ne, getE_replicate, hcidx]
      | true =>
        simp [getE_replicate]
    | false =>
      by_cases hcidx : c = cfg.total_strain_index
      · subst hcidx
        simp [getD_set_self, hti]
      · simp [getE_set_ne, getE_replicate, hcidx]


/-- C8 witness: on the total-strain configuration cfgW8t, at unit shear
strain rate, timestep length 10, the total-strain reaction term is 10. -/
theorem C8_witness :
    (evaluatePoint cfgW8t .diffusion .drucker_prager .harmonic 1 10 293 0 [0]
        (some ⟨0, 0, 1⟩) none false).reaction_terms.getD 0 0 = 10 := by
  have h := C8_reaction_terms cfgW8t .diffusion .drucker_prager .harmonic 1
    10 293 0 [0] ⟨0, 0, 1⟩ none false rfl rfl (by norm_num)
    (by norm_num [cfgW8t, cfgW]) (by norm_num [cfgW8t, cfgW])
    (by norm_num [cfgW8t, cfgW]) 0 (by norm_num)
  rw [h, if_pos (Or.inr (Or.inr ⟨rfl, rfl, by norm_num [cfgW8t, cfgW]⟩)),
    sqrt_second_inv_unit]
  norm_num [cfgW8t, cfgW]

/-- The masked volume fractions of the single plastic-strain field on
cfgW8: the strain tracker is excluded, leaving background 1 and phase 0. -/
theorem cfgW8_vf :
    compute_volume_fractions_masked [0] (composition_mask cfgW8) = [1, 0] := by
  unfold compute_volume_fractions_masked composition_mask
  norm_num [cfgW8, cfgW, List.range_succ]

/-- On cfgW8 the capped yield strength is the maximum yield stress 1e12
(the huge cohesion is cut off). -/
theorem cfgW8_yield (j : ℕ) :
    phase_yield_strength cfgW8 [0] 0 j = 1e12 := by
  unfold phase_yield_strength phase_cohesion_phi weakening_strain_ii
    calculate_plastic_weakening weakening_strain_fraction
    drucker_prager_yield_2d
  norm_num [cfgW8, cfgW, Real.cos_zero, Real.sin_zero]

/-- On cfgW8 the pre-yield viscosity is 1. -/
theorem cfgW8_pre (P T edot : ℝ) (j : ℕ) :
    viscosity_pre_yield cfgW8 .diffusion P T edot [0] j = 1 := by
  unfold viscosity_pre_yield spcrust_adjust phase_viscous_weakening
    calculate_viscous_weakening weakening_strain_ii weakening_strain_fraction
  have hflow : viscosity_flow cfgW8 .diffusion P T edot j =
      viscosity_diffusion cfgW8 P T j := rfl
  rw [hflow]
  unfold viscosity_diffusion
  norm_num [cfgW8, cfgW, Real.rpow_zero, Real.exp_zero]

/-- On cfgW8 the point does not plastically yield: the viscous stress 2
stays below the capped yield strength 1e12. -/
theorem cfgW8_flag :
    plastic_yielding_flag cfgW8 [1, 0] 0 293 [0] ⟨0, 0, 1⟩ .diffusion
      .drucker_prager 1 = false := by
  have hmei : max_element_index [(1:ℝ), 0] = 0 := by
    norm_num [max_element_index]
  have h2 : (calculate_isostrain_viscosities cfgW8 [1, 0] 0 293 [0] ⟨0, 0, 1⟩
      .diffusion .drucker_prager 1).2 =
      (List.range 2).map (fun j => phase_yielding cfgW8 .diffusion 0 293
        (edot_ii_value cfgW8 1 ⟨0, 0, 1⟩) [0] j) := rfl
  have havg : average_value [1, 0]
      (calculate_isostrain_viscosities cfgW8 [1, 0] 0 293 [0] ⟨0, 0, 1⟩
        .diffusion .drucker_prager 1).2 .maximum_composition =
      (calculate_isostrain_viscosities cfgW8 [1, 0] 0 293 [0] ⟨0, 0, 1⟩
        .diffusion .drucker_prager 1).2.getD (max_element_index [1, 0]) 0 :=
    rfl
  have hedot : edot_ii_value cfgW8 1 ⟨0, 0, 1⟩ = 1 :=
    edot_unit cfgW8 1 one_ne_zero (by norm_num [cfgW8, cfgW])
  unfold plastic_yielding_flag
  rw [havg, hmei, h2, getD_map_range _ (by norm_num)]
  unfold phase_yielding
  rw [hedot, cfgW8_pre, cfgW8_yield,
    if_neg (by norm_num : ¬((1e12:ℝ) ≤ 2 * 1 * 1)), if_pos rfl]

/-- C8 counterexample: on cfgW8 (plastic-strain tracking, not yielding)
the plastic-strain reaction term stays 0 and is not edot_ii*dt = 10, contra
the unconditional claim. -/
theorem C8_counterexample :
    (evaluatePoint cfgW8 .diffusion .drucker_prager .harmonic 1 10 293 0 [0]
        (some ⟨0, 0, 1⟩) none false).reaction_terms.getD
        cfgW8.plastic_strain_index 0 ≠
      max (Real.sqrt |((⟨0, 0, 1⟩ : SymTensor2).deviator).second_invariant|)
        cfgW8.min_strain_rate * 10 := by
  have hre : (evaluatePoint cfgW8 .diffusion .drucker_prager .harmonic 1 10
      293 0 [0] (some ⟨0, 0, 1⟩) none false).reaction_terms =
      reaction_terms_out cfgW8 1 10 [0] (some ⟨0, 0, 1⟩)
        (plastic_yielding_flag cfgW8
          (compute_volume_fractions_masked [0] (composition_mask cfgW8)) 0 293
          [0] ⟨0, 0, 1⟩ .diffusion .drucker_prager 1) := rfl
  have hterm : reaction_terms_out cfgW8 1 10 [0] (some ⟨0, 0, 1⟩) false =
      [0] := by
    simp only [reaction_terms_out]
    rw [if_pos ⟨rfl, rfl, by norm_num⟩,
      if_neg (show ¬(cfgW8.use_plastic_strain_weakening = true ∧
        (false : Bool) = true) from by simp),
      if_neg (show ¬(cfgW8.use_viscous_strain_weakening = true ∧ True) from
        by simp [cfgW8, cfgW]),
      if_neg (show ¬(cfgW8.use_plastic_strain_weakening = false ∧
        cfgW8.use_viscous_strain_weakening = false) from by simp [cfgW8, cfgW])]
    simp
  rw [hre, cfgW8_vf, cfgW8_flag, hterm, sqrt_second_inv_unit]
  norm_num [cfgW8, cfgW]

/-! ## Claim C10 -/

/-- C10: exactly when the caller allocated the plastic additional-output
slot, evaluate fills it with the fraction-weighted (possibly weakened)
cohesion, the fraction-weighted friction angle times 180/pi, and a
yielding entry that is exactly 0 or 1; with the slot absent nothing is
written. -/
theorem C10_plastic_outputs (cfg : VPConfig) (vt : ViscosityScheme)
    (yt : YieldScheme) (avg : AveragingScheme) (ts : ℕ) (dt T P : ℝ)
    (comp : List ℝ) (srOpt : Option SymTensor2) (ad : Option ℝ) :
    ((evaluatePoint cfg vt yt avg ts dt T P comp srOpt ad true).plastic =
      some
        (∑ j in Finset.range (compute_volume_fractions_masked comp
            (composition_mask cfg)).length,
          (compute_volume_fractions_masked comp
            (composition_mask cfg)).getD j 0 *
            (if cfg.use_strain_weakening then
              (calculate_plastic_weakening cfg
                (output_strain_invariant cfg comp) j).1
             else cfg.cohesions j),
         (∑ j in Finset.range (compute_volume_fractions_masked comp
            (composition_mask cfg)).length,
          (compute_volume_fractions_masked comp
            (composition_mask cfg)).getD j 0 *
            (if cfg.use_strain_weakening then
              (calculate_plastic_weakening cfg
                (output_strain_invariant cfg comp) j).2
             else cfg.angles_internal_friction j)) * 180 / Real.pi,
         if (evaluatePoint cfg vt yt avg ts dt T P comp srOpt ad
             true).plastic_yielding then 1 else 0)) ∧
    ((if (evaluatePoint cfg vt yt avg ts dt T P comp srOpt ad
          true).plastic_yielding then (1:ℝ) else 0) = 0 ∨
     (if (evaluatePoint cfg vt yt avg ts dt T P comp srOpt ad
          true).plastic_yielding then (1:ℝ) else 0) = 1) ∧
    (evaluatePoint cfg vt yt avg ts dt T P comp srOpt ad false).plastic =
      none := by
  refine ⟨rfl, ?_, rfl⟩
  cases hb : (evaluatePoint cfg vt yt avg ts dt T P comp srOpt ad
      true).plastic_yielding
  · left
    simp
  · right
    simp

end AspectVP
